import Mathlib

/-!
Verification development for the conversational turn processor
(`UserConversationProcessor`), its tool-lifecycle wrapper (`attachLifecycle`),
the modification-queue tool (`buildEditAppTool`), and the pipeline-event
bridge (`processProjectUpdates` / `isProjectUpdateType`).

The TypeScript source is embedded shallowly:

* The mutable turn-scoped variables `extractedUserResponse` and
  `extractedEnhancedRequest` become a `TurnState` record threaded
  explicitly through the engine-event loop.
* The streaming callback `conversationResponseCallback` becomes a trace
  of `CallbackEvent` values returned alongside the state: each call the
  source makes to the callback is one element of the trace, in order.
* The external inference engine (`executeInference`, which is not part of
  the sources under study) is modelled from the spec as an `EngineRun`:
  the ordered list of engine-visible events of the turn (streamed chunks
  and tool invocations, which the engine performs mid-turn) together with
  an outcome that is either the final completion text or a raised error.
* Thrown exceptions become `Except` values; the two fatal classes
  `RateLimitExceededError` and `SecurityError` are the corresponding
  constructors of `ErrorKind`.
* Fresh conversation identifiers (`IdGenerator.generateConversationId`,
  not in the sources under study) are modelled from the spec as an
  opaque injective function of a threaded counter.
-/

/-- Role of one transcript entry: `user`, `assistant` or `tool`. -/
inductive Role where
  | user
  | assistant
  | tool
deriving DecidableEq, Repr

/-- Transcript Entry / `ConversationMessage`: one message of a conversation,
with its role, textual content, and correlation identifier. -/
structure ConversationMessage where
  role : Role
  content : String
  conversationId : String
deriving DecidableEq, Repr

/-- Modelled from the spec: `IdGenerator.generateConversationId` (the
id-generator module is not among the sources under study; the spec calls the
ids opaque fresh correlation tokens).  Freshness is modelled by a threaded
natural-number counter. -/
def IdGenerator.generateConversationId (n : Nat) : String :=
  "conv-" ++ toString n

/-- Modelled from the spec: `createUserMessage` from `inferutils/common`
(not among the sources under study): a Transcript Entry with role `user`
and the given content.  The call sites overwrite `conversationId`. -/
def createUserMessage (content : String) : ConversationMessage :=
  { role := Role.user, content := content, conversationId := "" }

/-- Modelled from the spec: `createAssistantMessage` from
`inferutils/common` (not among the sources under study): a Transcript Entry
with role `assistant` and the given content. -/
def createAssistantMessage (content : String) : ConversationMessage :=
  { role := Role.assistant, content := content, conversationId := "" }

/-- Status carried by a tool lifecycle notification
(`'start' | 'success' | 'error'` in the source callback type). -/
inductive ToolStatus where
  | start
  | success
  | error
deriving DecidableEq, Repr

/-- Erased tool-call arguments, the embedding of the source's
`args as Record<string, unknown>` cast (string-valued records suffice for
every tool argument occurring in this core). -/
abbrev ToolArgs : Type := List (String × String)

/-- The `tool` payload of one `conversationResponseCallback` call. -/
structure ToolEvent where
  name : String
  status : ToolStatus
  args : ToolArgs
deriving DecidableEq, Repr

/-- One call to `conversationResponseCallback(message, conversationId,
isStreaming, tool?)`, recorded as a trace element. -/
structure CallbackEvent where
  message : String
  conversationId : String
  isStreaming : Bool
  tool : Option ToolEvent := none
deriving DecidableEq, Repr

/-- JSON-schema fragment for one declared property
(`{ type, minLength?, description }` in the source). -/
structure PropertySchema where
  type : String
  minLength : Option Nat := none
  description : String := ""
deriving DecidableEq, Repr

/-- JSON-schema fragment for a tool's `parameters` object
(`{ type, additionalProperties, properties, required }` in the source). -/
structure ParamSchema where
  type : String
  additionalProperties : Bool := true
  properties : List (String × PropertySchema)
  required : List String
deriving DecidableEq, Repr

/-- Modelled from the spec: the engine-side JSON-schema validation that runs
before a tool's `execute` (the spec states schemas are validated by the
inference engine before `execute` is invoked; the engine is not among the
sources under study).  A string-valued argument record is accepted iff every
required key is present, every present key is either declared (and then
satisfies its `type`/`minLength` constraints) or `additionalProperties`
is permitted. -/
def schemaAccepts (ps : ParamSchema) (args : ToolArgs) : Bool :=
  ps.required.all (fun k => args.any (fun kv => kv.1 == k)) &&
  args.all (fun kv =>
    match ps.properties.find? (fun p => p.1 == kv.1) with
    | some p =>
        p.2.type == "string" &&
        (match p.2.minLength with
         | some m => decide (m ≤ kv.2.length)
         | none => true)
    | none => !ps.additionalProperties)

/-- The `function` block of a tool definition
(`{ name, description, parameters }`). -/
structure ToolFunctionDecl where
  name : String
  description : String
  parameters : ParamSchema
deriving DecidableEq, Repr

/-- `ToolDefinition<TArgs, TResult>`: a Tool Contract.  The implementation's
side effect on turn-scoped state is made explicit as a state transformer
over `σ`; the optional lifecycle hooks return the `CallbackEvent` they fire
into the notification sink. -/
structure ToolDefinition (Args Result σ : Type) where
  type : String := "function"
  function : ToolFunctionDecl
  implementation : Args → σ → σ × Result
  onStart : Option (Args → CallbackEvent) := none
  onComplete : Option (Args → Result → CallbackEvent) := none

/-- `EditAppArgs`: the argument record of the modification-queue tool. -/
structure EditAppArgs where
  modificationRequest : String
deriving DecidableEq, Repr

/-- The result object the modification-queue tool's implementation returns
(`{content: "Modification request queued successfully, ..."}`). -/
structure EditAppResult where
  content : String
deriving DecidableEq, Repr

/-- `buildEditAppTool(stateMutator)`: the modification-queue Tool Contract.
External name `queue_request`; one required string property
`modificationRequest` of minimum length 8 with `additionalProperties:
false`; the implementation invokes the mutator on
`args.modificationRequest` and returns the fixed acknowledgment string. -/
def buildEditAppTool {σ : Type} (stateMutator : String → σ → σ) :
    ToolDefinition EditAppArgs EditAppResult σ :=
  { type := "function"
    function :=
      { name := "queue_request"
        description := "Queue up modification requests or changes, to be implemented in the next development phase"
        parameters :=
          { type := "object"
            additionalProperties := false
            properties := [("modificationRequest",
              { type := "string"
                minLength := some 8
                description := "The changes needed to be made to the app. Please don\x27t supply any code level or implementation details. Provide detailed requirements and description of the changes you want to make." })]
            required := ["modificationRequest"] } }
    implementation := fun args s =>
      (stateMutator args.modificationRequest s,
       { content := "Modification request queued successfully, will be implemented in the next phase of development." }) }

/-- The fixed fallback acknowledgment text `FALLBACK_USER_RESPONSE`. -/
def FALLBACK_USER_RESPONSE : String :=
  "I understand you\x27d like to make some changes to your project. Let me make sure this is incorporated in the next phase of development."

/-- Streaming batch size (`CHUNK_SIZE`). -/
def CHUNK_SIZE : Nat := 64

/-- The turn-scoped mutable state captured by the closures inside
`UserConversationProcessor.execute`: the running streamed-response buffer
and the last captured modification request. -/
structure TurnState where
  extractedUserResponse : String := ""
  extractedEnhancedRequest : String := ""
deriving DecidableEq, Repr

/-- `attachLifecycle`: decorates a Tool Contract with `onStart`/`onComplete`
hooks that fire the turn's notification sink with empty chunk text, the
turn's conversation identifier, `isStreaming=false`, and a tool event
carrying the tool's name, status `start` (resp. `success`) and the call
arguments.  `er` embeds the source's `args as Record<string, unknown>`
erasure. -/
def attachLifecycle {Args Result σ : Type} (aiConversationId : String)
    (er : Args → ToolArgs) (td : ToolDefinition Args Result σ) :
    ToolDefinition Args Result σ :=
  { td with
    onStart := some (fun args =>
      { message := ""
        conversationId := aiConversationId
        isStreaming := false
        tool := some { name := td.function.name, status := ToolStatus.start, args := er args } })
    onComplete := some (fun args _r =>
      { message := ""
        conversationId := aiConversationId
        isStreaming := false
        tool := some { name := td.function.name, status := ToolStatus.success, args := er args } }) }

/-- Argument erasure for the modification-queue tool. -/
def eraseEditArgs (a : EditAppArgs) : ToolArgs :=
  [("modificationRequest", a.modificationRequest)]

/-- Modelled from the spec: `toolWebSearchDefinition` (its module is not
among the sources under study): a web-search capability whose execution does
not touch the turn's extraction state. -/
def toolWebSearchDefinition : ToolDefinition ToolArgs Unit TurnState :=
  { function :=
      { name := "web_search"
        description := "Search the web for information"
        parameters := { type := "object", properties := [], required := [] } }
    implementation := fun _ s => (s, ()) }

/-- Modelled from the spec: `toolWeatherDefinition` (its module is not
among the sources under study): an informational lookup capability whose
execution does not touch the turn's extraction state. -/
def toolWeatherDefinition : ToolDefinition ToolArgs Unit TurnState :=
  { function :=
      { name := "weather"
        description := "Look up weather information"
        parameters := { type := "object", properties := [], required := [] } }
    implementation := fun _ s => (s, ()) }

/-- The mutator `execute` passes to `buildEditAppTool`: writes the supplied
request into `extractedEnhancedRequest` (single-slot, last write wins). -/
def editMutator (modificationRequest : String) (s : TurnState) : TurnState :=
  { s with extractedEnhancedRequest := modificationRequest }

/-- One engine-visible occurrence during the streamed inference call:
a streamed text delta, an invocation attempt of the modification-queue
tool, or an invocation of one of the other wrapped tools. -/
inductive EngineEvent where
  | chunk (text : String)
  | editCall (req : String)
  | otherCall (toolName : String) (args : ToolArgs)
deriving DecidableEq, Repr

/-- An error raised during the engine call, carrying its class and
message.  `rateLimitExceeded` and `securityError` embed the imported
`RateLimitExceededError` and `SecurityError` classes; `other` stands for
every other exception. -/
inductive ErrorKind where
  | rateLimitExceeded
  | securityError
  | other
deriving DecidableEq, Repr

/-- A raised error value (class plus payload). -/
structure TurnError where
  kind : ErrorKind
  message : String
deriving DecidableEq, Repr

/-- The `error instanceof RateLimitExceededError || error instanceof
SecurityError` test of the catch block. -/
def isFatalError (e : TurnError) : Bool :=
  e.kind == ErrorKind.rateLimitExceeded || e.kind == ErrorKind.securityError

/-- Modelled from the spec: one run of the external inference engine
(`executeInference` is not among the sources under study): the ordered
events the engine produces mid-turn, and its outcome — the final completion
text (`result.string`) or a raised error. -/
structure EngineRun where
  events : List EngineEvent
  outcome : Except TurnError String
deriving Repr

/-- Runs a wrapped tool the way the engine does (spec: the engine calls
`onStart` immediately before and `onComplete` immediately after each
invocation): fire `onStart`, run the implementation on the turn state,
fire `onComplete`; the emitted callback events are returned in order. -/
def runWrappedTool {Args Result : Type}
    (td : ToolDefinition Args Result TurnState) (args : Args)
    (st : TurnState) : TurnState × List CallbackEvent :=
  let startEvts := match td.onStart with
    | some f => [f args]
    | none => []
  let step := td.implementation args st
  let doneEvts := match td.onComplete with
    | some f => [f args step.2]
    | none => []
  (step.1, startEvts ++ doneEvts)

/-- Processes one engine event against the turn state, returning the new
state and the callback events fired, in order.  A streamed chunk is
forwarded verbatim with `isStreaming=true` and appended to the response
buffer; a modification-queue call is schema-validated by the engine before
`execute` runs (an invalid call never reaches the implementation); other
tool calls run their wrapped contract without touching extraction state. -/
def stepEvent (aiConversationId : String) (st : TurnState) :
    EngineEvent → TurnState × List CallbackEvent
  | EngineEvent.chunk text =>
      ({ st with extractedUserResponse := st.extractedUserResponse ++ text },
       [{ message := text, conversationId := aiConversationId, isStreaming := true }])
  | EngineEvent.editCall req =>
      let td := attachLifecycle aiConversationId eraseEditArgs (buildEditAppTool editMutator)
      if schemaAccepts td.function.parameters [("modificationRequest", req)] then
        runWrappedTool td { modificationRequest := req } st
      else
        (st, [])
  | EngineEvent.otherCall toolName args =>
      if toolName == toolWebSearchDefinition.function.name then
        runWrappedTool (attachLifecycle aiConversationId id toolWebSearchDefinition) args st
      else if toolName == toolWeatherDefinition.function.name then
        runWrappedTool (attachLifecycle aiConversationId id toolWeatherDefinition) args st
      else
        (st, [])

/-- Folds the engine's events over the turn state, concatenating the fired
callback events in delivery order. -/
def runEngine (aiConversationId : String) (st : TurnState) :
    List EngineEvent → TurnState × List CallbackEvent
  | [] => (st, [])
  | e :: rest =>
      let first := stepEvent aiConversationId st e
      let restRun := runEngine aiConversationId first.1 rest
      (restRun.1, first.2 ++ restRun.2)

/-- `ConversationalResponseType`: the structured response of one turn. -/
structure ConversationalResponseType where
  enhancedUserRequest : String
  userResponse : String
deriving DecidableEq, Repr

/-- `UserConversationOutputs`: the Turn Output. -/
structure UserConversationOutputs where
  conversationResponse : ConversationalResponseType
  messages : List ConversationMessage
deriving DecidableEq, Repr

/-- `UserConversationProcessor.execute`: one conversational turn.  Appends
the user entry to `pastMessages`, generates the per-turn conversation
identifier, drives the engine run (streaming chunks and tool invocations
against the turn state while collecting the callback trace), then either
packages the success output and appends the assistant entry holding
`result.string`, re-throws a fatal error unchanged, or returns the
deterministic fallback output.  The returned pair is (callback trace,
outcome); a thrown error is `Except.error`. -/
def UserConversationProcessor.execute (userMessage : String)
    (pastMessages : List ConversationMessage) (run : EngineRun) (n : Nat) :
    List CallbackEvent × Except TurnError UserConversationOutputs :=
  let userEntry :=
    { createUserMessage userMessage with
        conversationId := IdGenerator.generateConversationId n }
  let messages := pastMessages ++ [userEntry]
  let aiConversationId := IdGenerator.generateConversationId (n + 1)
  let engineStep := runEngine aiConversationId
    { extractedUserResponse := "", extractedEnhancedRequest := "" } run.events
  match run.outcome with
  | Except.ok resultString =>
      (engineStep.2, Except.ok
        { conversationResponse :=
            { enhancedUserRequest := engineStep.1.extractedEnhancedRequest
              userResponse := engineStep.1.extractedUserResponse }
          messages := messages ++
            [{ createAssistantMessage resultString with
                 conversationId := IdGenerator.generateConversationId (n + 2) }] })
  | Except.error err =>
      if isFatalError err then
        (engineStep.2, Except.error err)
      else
        (engineStep.2, Except.ok
          { conversationResponse :=
              { enhancedUserRequest := "User request: " ++ userMessage
                userResponse := FALLBACK_USER_RESPONSE }
            messages := pastMessages ++
              [{ createUserMessage userMessage with
                   conversationId := IdGenerator.generateConversationId (n + 2) },
               { createAssistantMessage FALLBACK_USER_RESPONSE with
                   conversationId := IdGenerator.generateConversationId (n + 3) }] })

/-- The fixed allow-list of milestone event kinds
(`RelevantProjectUpdateWebsoketMessages`).  The `WebSocketMessageResponses`
constants module is not among the sources under study; the seven member
values are modelled from the spec's names. -/
def RelevantProjectUpdateWebsoketMessages : List String :=
  ["phase-implementing", "phase-implemented", "code-review",
   "file-regenerating", "file-regenerated", "deployment-completed",
   "command-executing"]

/-- `UserConversationProcessor.isProjectUpdateType`: membership test against
the fixed allow-list. -/
def UserConversationProcessor.isProjectUpdateType (type : String) : Bool :=
  RelevantProjectUpdateWebsoketMessages.contains type

/-- `UserConversationProcessor.processProjectUpdates`: converts a milestone
event into one assistant Transcript Entry naming the kind (not its
payload), with a fresh conversation identifier.  The only fallible
operation inside the source's try block is the external `logger.info`
call; its outcome is the `loggerInfo` argument, and the catch branch
returns the empty sequence. -/
def UserConversationProcessor.processProjectUpdates {Payload : Type}
    (updateType : String) (_data : Payload)
    (loggerInfo : Except String Unit) (n : Nat) : List ConversationMessage :=
  match loggerInfo with
  | Except.ok _ =>
      [{ role := Role.assistant
         content := "**<Internal Memo>**\nProject Updates: " ++ updateType
           ++ "\n</Internal Memo>"
         conversationId := IdGenerator.generateConversationId n }]
  | Except.error _ => []

/-- The chunk texts of the callback calls made with `isStreaming=true`,
concatenated in delivery order. -/
def streamedConcat : List CallbackEvent → String
  | [] => ""
  | e :: rest =>
      if e.isStreaming then e.message ++ streamedConcat rest
      else streamedConcat rest

/-- The streamed chunk texts of an engine run, concatenated in order. -/
def streamedText : List EngineEvent → String
  | [] => ""
  | EngineEvent.chunk t :: rest => t ++ streamedText rest
  | _ :: rest => streamedText rest

/-- The modification-queue invocations of an engine run that pass schema
validation and hence reach the implementation, in order. -/
def editInvocations : List EngineEvent → List String
  | [] => []
  | EngineEvent.editCall req :: rest =>
      if 8 ≤ req.length then req :: editInvocations rest
      else editInvocations rest
  | _ :: rest => editInvocations rest

/-- Modelled from the spec: the engine's streaming contract — the final
completion text it returns equals the concatenation of the deltas it
streamed (the spec states the two must be identical; `executeInference`
is not among the sources under study). -/
def engineConsistent (run : EngineRun) : Prop :=
  ∀ s, run.outcome = Except.ok s → s = streamedText run.events

/-- The modification-queue tool's parameter schema accepts a
`modificationRequest` argument record exactly when the supplied string has
length at least 8. -/
theorem schemaAccepts_editParams (req : String) :
    schemaAccepts (buildEditAppTool (σ := TurnState) editMutator).function.parameters
      [("modificationRequest", req)] = decide (8 ≤ req.length) := by
  simp [schemaAccepts, buildEditAppTool]

/-- A schema-valid modification-queue call: start notification, mutation of
the extraction slot, success notification. -/
theorem stepEvent_editCall_valid (conv : String) (st : TurnState) (req : String)
    (h : 8 ≤ req.length) :
    stepEvent conv st (EngineEvent.editCall req) =
      ({ st with extractedEnhancedRequest := req },
       [{ message := "", conversationId := conv, isStreaming := false,
          tool := some { name := "queue_request", status := ToolStatus.start,
                         args := [("modificationRequest", req)] } },
        { message := "", conversationId := conv, isStreaming := false,
          tool := some { name := "queue_request", status := ToolStatus.success,
                         args := [("modificationRequest", req)] } }]) := by
  have hs : schemaAccepts (buildEditAppTool (σ := TurnState) editMutator).function.parameters
      [("modificationRequest", req)] = true := by
    rw [schemaAccepts_editParams]
    exact decide_eq_true h
  simp only [stepEvent, attachLifecycle]
  rw [hs]
  simp [runWrappedTool, attachLifecycle, buildEditAppTool, editMutator, eraseEditArgs]

/-- A schema-invalid modification-queue call is rejected by the engine-side
validation before the implementation runs: no state change, no events. -/
theorem stepEvent_editCall_invalid (conv : String) (st : TurnState) (req : String)
    (h : req.length < 8) :
    stepEvent conv st (EngineEvent.editCall req) = (st, []) := by
  have hs : schemaAccepts (buildEditAppTool (σ := TurnState) editMutator).function.parameters
      [("modificationRequest", req)] = false := by
    rw [schemaAccepts_editParams]
    simp [Nat.not_le.mpr h]
  simp only [stepEvent, attachLifecycle]
  rw [hs]
  simp

/-- Invocations of the other wrapped tools leave the turn state unchanged. -/
theorem stepEvent_otherCall_state (conv : String) (st : TurnState)
    (nm : String) (args : ToolArgs) :
    (stepEvent conv st (EngineEvent.otherCall nm args)).1 = st := by
  simp only [stepEvent]
  split
  · rfl
  · split
    · rfl
    · rfl

theorem runEngine_enhancedRequest (conv : String) (evs : List EngineEvent) :
    ∀ st : TurnState,
      ((runEngine conv st evs).1).extractedEnhancedRequest =
        (editInvocations evs).getLastD st.extractedEnhancedRequest := by
  induction evs with
  | nil => intro st; rfl
  | cons e rest ih =>
    intro st
    cases e with
    | chunk t =>
        simp only [runEngine, editInvocations]
        rw [ih]
        rfl
    | editCall req =>
        by_cases h : 8 ≤ req.length
        · simp only [runEngine, editInvocations, if_pos h,
            stepEvent_editCall_valid conv st req h]
          rw [ih, List.getLastD_cons]
        · simp only [runEngine, editInvocations, if_neg h,
            stepEvent_editCall_invalid conv st req (Nat.not_le.mp h)]
          rw [ih]
    | otherCall nm args =>
        simp only [runEngine, editInvocations]
        rw [stepEvent_otherCall_state, ih]

theorem runEngine_userResponse (conv : String) (evs : List EngineEvent) :
    ∀ st : TurnState,
      ((runEngine conv st evs).1).extractedUserResponse =
        st.extractedUserResponse ++ streamedText evs := by
  induction evs with
  | nil => intro st; simp [runEngine, streamedText, String.append_empty]
  | cons e rest ih =>
    intro st
    cases e with
    | chunk t =>
        simp only [runEngine, streamedText, stepEvent]
        rw [ih, String.append_assoc]
    | editCall req =>
        by_cases h : 8 ≤ req.length
        · simp only [runEngine, streamedText,
            stepEvent_editCall_valid conv st req h]
          rw [ih]
        · simp only [runEngine, streamedText,
            stepEvent_editCall_invalid conv st req (Nat.not_le.mp h)]
          rw [ih]
    | otherCall nm args =>
        simp only [runEngine, streamedText]
        rw [stepEvent_otherCall_state, ih]

theorem stepEvent_otherCall_trace (conv : String) (st : TurnState)
    (nm : String) (args : ToolArgs) :
    (stepEvent conv st (EngineEvent.otherCall nm args)).2 = [] ∨
    ∃ tn, (stepEvent conv st (EngineEvent.otherCall nm args)).2 =
      [{ message := "", conversationId := conv, isStreaming := false,
         tool := some { name := tn, status := ToolStatus.start, args := args } },
       { message := "", conversationId := conv, isStreaming := false,
         tool := some { name := tn, status := ToolStatus.success, args := args } }] := by
  simp only [stepEvent]
  split
  · right
    exact ⟨"web_search", by simp [runWrappedTool, attachLifecycle, toolWebSearchDefinition]⟩
  · split
    · right
      exact ⟨"weather", by simp [runWrappedTool, attachLifecycle, toolWeatherDefinition]⟩
    · left
      rfl

theorem streamedConcat_append (l1 l2 : List CallbackEvent) :
    streamedConcat (l1 ++ l2) = streamedConcat l1 ++ streamedConcat l2 := by
  induction l1 with
  | nil => simp [streamedConcat, String.empty_append]
  | cons e rest ih =>
      simp only [List.cons_append, streamedConcat]
      by_cases h : e.isStreaming
      · simp [h, ih, String.append_assoc]
      · simp [h, ih]

theorem stepEvent_streamedConcat (conv : String) (st : TurnState) (e : EngineEvent) :
    streamedConcat (stepEvent conv st e).2 =
      (match e with | EngineEvent.chunk t => t | _ => "") := by
  cases e with
  | chunk t => simp [stepEvent, streamedConcat, String.append_empty]
  | editCall req =>
      by_cases h : 8 ≤ req.length
      · rw [stepEvent_editCall_valid conv st req h]
        simp [streamedConcat]
      · rw [stepEvent_editCall_invalid conv st req (Nat.not_le.mp h)]
        simp [streamedConcat]
  | otherCall nm args =>
      rcases stepEvent_otherCall_trace conv st nm args with h | ⟨tn, h⟩ <;>
        rw [h] <;> simp [streamedConcat]

theorem runEngine_streamedConcat (conv : String) (evs : List EngineEvent) :
    ∀ st : TurnState,
      streamedConcat ((runEngine conv st evs).2) = streamedText evs := by
  induction evs with
  | nil => intro st; rfl
  | cons e rest ih =>
      intro st
      simp only [runEngine, streamedConcat_append, ih, stepEvent_streamedConcat]
      cases e with
      | chunk t => simp [streamedText]
      | editCall req => simp [streamedText, String.empty_append]
      | otherCall nm args => simp [streamedText, String.empty_append]

theorem runEngine_no_error_status (conv : String) (evs : List EngineEvent) :
    ∀ (st : TurnState) (e : CallbackEvent) (te : ToolEvent),
      e ∈ (runEngine conv st evs).2 → e.tool = some te →
      te.status ≠ ToolStatus.error := by
  induction evs with
  | nil =>
      intro st e te hmem
      simp [runEngine] at hmem
  | cons ev rest ih =>
      intro st e te hmem htool
      simp only [runEngine, List.mem_append] at hmem
      rcases hmem with hmem | hmem
      · cases ev with
        | chunk t =>
            simp [stepEvent] at hmem
            rw [hmem] at htool
            simp at htool
        | editCall req =>
            by_cases h : 8 ≤ req.length
            · rw [stepEvent_editCall_valid conv st req h] at hmem
              simp at hmem
              rcases hmem with hmem | hmem <;> rw [hmem] at htool <;>
                simp at htool <;> rw [← htool] <;> simp
            · rw [stepEvent_editCall_invalid conv st req (Nat.not_le.mp h)] at hmem
              simp at hmem
        | otherCall nm args =>
            rcases stepEvent_otherCall_trace conv st nm args with hch | ⟨tn, hch⟩ <;>
              rw [hch] at hmem
            · simp at hmem
            · simp at hmem
              rcases hmem with hmem | hmem <;> rw [hmem] at htool <;>
                simp at htool <;> rw [← htool] <;> simp
      · exact ih _ e te hmem htool

/-- C1: for every userMessage and pastMessages, `UserConversationProcessor.execute`
returns `messages` equal to `pastMessages` unchanged and in order followed by
exactly two new entries, one user entry (holding the user message) then one
assistant entry, on both the success and the fallback path, regardless of the
tool calls of the turn (`messages.length = pastMessages.length + 2`). -/
theorem execute_transcript_two_new_entries (u : String)
    (p : List ConversationMessage) (run : EngineRun) (n : Nat)
    (out : UserConversationOutputs)
    (h : (UserConversationProcessor.execute u p run n).2 = Except.ok out) :
    ∃ ue ae, out.messages = p ++ [ue, ae] ∧ ue.role = Role.user ∧
      ue.content = u ∧ ae.role = Role.assistant ∧
      out.messages.length = p.length + 2 := by
  obtain ⟨evs, outcome⟩ := run
  cases outcome with
  | ok s =>
      simp only [UserConversationProcessor.execute, Except.ok.injEq] at h
      refine ⟨{ role := Role.user, content := u,
                conversationId := IdGenerator.generateConversationId n },
              { role := Role.assistant, content := s,
                conversationId := IdGenerator.generateConversationId (n + 2) },
              ?_, rfl, rfl, rfl, ?_⟩
      · rw [← h]
        simp [createUserMessage, createAssistantMessage]
      · rw [← h]
        simp [createUserMessage, createAssistantMessage]
  | error err =>
      by_cases hf : isFatalError err = true
      · simp only [UserConversationProcessor.execute, hf, if_true] at h
        cases h
      · rw [Bool.not_eq_true] at hf
        simp only [UserConversationProcessor.execute, hf, Bool.false_eq_true,
          if_false, Except.ok.injEq] at h
        refine ⟨{ role := Role.user, content := u,
                  conversationId := IdGenerator.generateConversationId (n + 2) },
                { role := Role.assistant, content := FALLBACK_USER_RESPONSE,
                  conversationId := IdGenerator.generateConversationId (n + 3) },
                ?_, rfl, rfl, rfl, ?_⟩
        · rw [← h]
          simp [createUserMessage, createAssistantMessage]
        · rw [← h]
          simp [createUserMessage, createAssistantMessage]

/-- C2: on the success path, the concatenation in delivery order of the chunk
texts of the `conversationResponseCallback` calls made with `isStreaming=true`
equals `response.userResponse`, and (by the engine's streaming contract) this
equals the engine's final completion text, the text stored in the appended
assistant entry. -/
theorem execute_streaming_consistency (u : String) (p : List ConversationMessage)
    (run : EngineRun) (n : Nat) (s : String) (out : UserConversationOutputs)
    (hc : engineConsistent run)
    (hs : run.outcome = Except.ok s)
    (h : (UserConversationProcessor.execute u p run n).2 = Except.ok out) :
    streamedConcat (UserConversationProcessor.execute u p run n).1 =
      out.conversationResponse.userResponse ∧
    out.conversationResponse.userResponse = s ∧
    (out.messages.getLast?).map (fun m => m.content) = some s := by
  obtain ⟨evs, outcome⟩ := run
  have hse : s = streamedText evs := hc s hs
  simp only at hs
  subst hs
  simp only [UserConversationProcessor.execute, Except.ok.injEq] at h
  subst h
  refine ⟨?_, ?_, ?_⟩
  · simp only [UserConversationProcessor.execute]
    rw [runEngine_streamedConcat, runEngine_userResponse]
    simp [String.empty_append, hse]
  · rw [runEngine_userResponse]
    simp [String.empty_append, hse]
  · simp only [List.append_assoc, List.getLast?_concat]
    simp [createAssistantMessage]

/-- C3: a `RateLimitExceededError` or `SecurityError` raised inside the engine
call is re-thrown by `UserConversationProcessor.execute` as exactly the same
error value, with no Turn Output returned; any other error kind does not
propagate (an output is returned instead). -/
theorem execute_fatal_errors_propagate (u : String) (p : List ConversationMessage)
    (evs : List EngineEvent) (err : TurnError) (n : Nat) :
    ((err.kind = ErrorKind.rateLimitExceeded ∨ err.kind = ErrorKind.securityError) →
      (UserConversationProcessor.execute u p ⟨evs, Except.error err⟩ n).2 =
        Except.error err) ∧
    (err.kind = ErrorKind.other →
      ∃ out, (UserConversationProcessor.execute u p ⟨evs, Except.error err⟩ n).2 =
        Except.ok out) := by
  constructor
  · intro hk
    have hf : isFatalError err = true := by
      rcases hk with hk | hk <;> simp [isFatalError, hk]
    simp [UserConversationProcessor.execute, hf]
  · intro hk
    have hf : isFatalError err = false := by
      simp [isFatalError, hk]
    simp [UserConversationProcessor.execute, hf]

/-- C4: any error other than `RateLimitExceededError` and `SecurityError` is
recovered locally: `execute` returns the deterministic fallback Turn Output,
with `enhancedUserRequest = "User request: " ++ userMessage`, `userResponse`
the fixed fallback acknowledgment, and `messages` equal to `pastMessages`
plus a new user entry and a new fallback assistant entry. -/
theorem execute_nonfatal_fallback (u : String) (p : List ConversationMessage)
    (evs : List EngineEvent) (err : TurnError) (n : Nat)
    (h : err.kind = ErrorKind.other) :
    (UserConversationProcessor.execute u p ⟨evs, Except.error err⟩ n).2 =
      Except.ok
        { conversationResponse :=
            { enhancedUserRequest := "User request: " ++ u
              userResponse := FALLBACK_USER_RESPONSE }
          messages := p ++
            [{ role := Role.user, content := u,
               conversationId := IdGenerator.generateConversationId (n + 2) },
             { role := Role.assistant, content := FALLBACK_USER_RESPONSE,
               conversationId := IdGenerator.generateConversationId (n + 3) }] } := by
  have hf : isFatalError err = false := by
    simp [isFatalError, h]
  simp [UserConversationProcessor.execute, hf, createUserMessage,
    createAssistantMessage]

/-- C5: within one turn, on the success path,
`response.enhancedUserRequest` is the empty string when the modification-queue
tool was never invoked, the supplied request when invoked once, and the
argument of the last invocation for any longer sequence of invocations
(last-write-wins, no accumulation, no rejection of duplicates). -/
theorem execute_enhanced_request_last_write_wins (u : String)
    (p : List ConversationMessage) (evs : List EngineEvent) (s : String)
    (n : Nat) (out : UserConversationOutputs)
    (h : (UserConversationProcessor.execute u p ⟨evs, Except.ok s⟩ n).2 =
      Except.ok out) :
    out.conversationResponse.enhancedUserRequest =
      (editInvocations evs).getLastD "" := by
  simp only [UserConversationProcessor.execute, Except.ok.injEq] at h
  subst h
  exact runEngine_enhancedRequest _ evs _

/-- Witness for C1 at a concrete turn: empty history, successful engine run. -/
theorem execute_transcript_two_new_entries_witness :
    ∃ ue ae,
      ({ conversationResponse := { enhancedUserRequest := "", userResponse := "" },
         messages := [{ role := Role.user, content := "hi", conversationId := "conv-0" },
                      { role := Role.assistant, content := "ok", conversationId := "conv-2" }] } :
        UserConversationOutputs).messages = [] ++ [ue, ae] ∧
      ue.role = Role.user ∧ ue.content = "hi" ∧ ae.role = Role.assistant ∧
      ({ conversationResponse := { enhancedUserRequest := "", userResponse := "" },
         messages := [{ role := Role.user, content := "hi", conversationId := "conv-0" },
                      { role := Role.assistant, content := "ok", conversationId := "conv-2" }] } :
        UserConversationOutputs).messages.length =
        ([] : List ConversationMessage).length + 2 :=
  execute_transcript_two_new_entries "hi" [] ⟨[], Except.ok "ok"⟩ 0 _ rfl

/-- Witness for C2 at a concrete streamed turn of two chunks. -/
theorem execute_streaming_consistency_witness :
    streamedConcat (UserConversationProcessor.execute "hi" []
        ⟨[EngineEvent.chunk "He", EngineEvent.chunk "llo"], Except.ok "Hello"⟩ 0).1 =
      ({ conversationResponse := { enhancedUserRequest := "", userResponse := "Hello" },
         messages := [{ role := Role.user, content := "hi", conversationId := "conv-0" },
                      { role := Role.assistant, content := "Hello", conversationId := "conv-2" }] } :
        UserConversationOutputs).conversationResponse.userResponse ∧
    ({ conversationResponse := { enhancedUserRequest := "", userResponse := "Hello" },
       messages := [{ role := Role.user, content := "hi", conversationId := "conv-0" },
                    { role := Role.assistant, content := "Hello", conversationId := "conv-2" }] } :
      UserConversationOutputs).conversationResponse.userResponse = "Hello" ∧
    (({ conversationResponse := { enhancedUserRequest := "", userResponse := "Hello" },
        messages := [{ role := Role.user, content := "hi", conversationId := "conv-0" },
                     { role := Role.assistant, content := "Hello", conversationId := "conv-2" }] } :
       UserConversationOutputs).messages.getLast?).map (fun m => m.content) = some "Hello" :=
  execute_streaming_consistency "hi" []
    ⟨[EngineEvent.chunk "He", EngineEvent.chunk "llo"], Except.ok "Hello"⟩ 0 "Hello" _
    (fun s hs => by cases hs; rfl) rfl rfl

/-- Witness for C3 at a concrete rate-limit error. -/
theorem execute_fatal_errors_propagate_witness :
    (UserConversationProcessor.execute "hi" []
        ⟨[], Except.error ⟨ErrorKind.rateLimitExceeded, "rate limited"⟩⟩ 0).2 =
      Except.error ⟨ErrorKind.rateLimitExceeded, "rate limited"⟩ :=
  (execute_fatal_errors_propagate "hi" [] []
    ⟨ErrorKind.rateLimitExceeded, "rate limited"⟩ 0).1 (Or.inl rfl)

/-- Witness for C4 at a concrete unclassified error. -/
theorem execute_nonfatal_fallback_witness :
    (UserConversationProcessor.execute "hi" []
        ⟨[], Except.error ⟨ErrorKind.other, "network failure"⟩⟩ 0).2 =
      Except.ok
        { conversationResponse :=
            { enhancedUserRequest := "User request: " ++ "hi"
              userResponse := FALLBACK_USER_RESPONSE }
          messages := [] ++
            [{ role := Role.user, content := "hi",
               conversationId := IdGenerator.generateConversationId (0 + 2) },
             { role := Role.assistant, content := FALLBACK_USER_RESPONSE,
               conversationId := IdGenerator.generateConversationId (0 + 3) }] } :=
  execute_nonfatal_fallback "hi" [] [] ⟨ErrorKind.other, "network failure"⟩ 0 rfl

/-- Witness for C5 at a turn with two valid modification-queue invocations. -/
theorem execute_enhanced_request_last_write_wins_witness :
    ({ conversationResponse := { enhancedUserRequest := "Add B feature", userResponse := "" },
       messages := [{ role := Role.user, content := "hi", conversationId := "conv-0" },
                    { role := Role.assistant, content := "done", conversationId := "conv-2" }] } :
      UserConversationOutputs).conversationResponse.enhancedUserRequest =
      (editInvocations [EngineEvent.editCall "Add A feature",
        EngineEvent.editCall "Add B feature"]).getLastD "" :=
  execute_enhanced_request_last_write_wins "hi" []
    [EngineEvent.editCall "Add A feature", EngineEvent.editCall "Add B feature"]
    "done" 0 _ rfl

/-- C6: for every mutator, `buildEditAppTool` yields a tool named
`queue_request` whose parameter schema declares exactly one property, the
required string field `modificationRequest` with minimum length 8, and
forbids additional properties — so a call with a `modificationRequest`
shorter than 8 characters fails schema validation and never reaches the
implementation — and whose implementation calls the mutator on
`args.modificationRequest` and returns the fixed literal acknowledgment. -/
theorem buildEditAppTool_contract :
    ∀ (σ : Type) (m : String → σ → σ),
      (buildEditAppTool m).function.name = "queue_request" ∧
      (buildEditAppTool m).function.parameters.additionalProperties = false ∧
      (buildEditAppTool m).function.parameters.required = ["modificationRequest"] ∧
      (∃ pr, (buildEditAppTool m).function.parameters.properties =
          [("modificationRequest", pr)] ∧ pr.type = "string" ∧
          pr.minLength = some 8) ∧
      (∀ s : String, s.length < 8 →
        schemaAccepts (buildEditAppTool m).function.parameters
          [("modificationRequest", s)] = false) ∧
      (∀ (conv : String) (st : TurnState) (req : String), req.length < 8 →
        stepEvent conv st (EngineEvent.editCall req) = (st, [])) ∧
      (∀ (args : EditAppArgs) (st : σ),
        (buildEditAppTool m).implementation args st =
          (m args.modificationRequest st,
           { content := "Modification request queued successfully, will be implemented in the next phase of development." })) := by
  intro σ m
  refine ⟨rfl, rfl, rfl, ⟨_, rfl, rfl, rfl⟩, ?_, ?_, fun args st => rfl⟩
  · intro s hs
    have heq : (buildEditAppTool m).function.parameters =
        (buildEditAppTool (σ := TurnState) editMutator).function.parameters := rfl
    rw [heq, schemaAccepts_editParams]
    simp [Nat.not_le.mpr hs]
  · intro conv st req hreq
    exact stepEvent_editCall_invalid conv st req hreq

/-- Witness for C6: a 5-character request is rejected by the schema and the
engine-side validation drops the call before the implementation runs. -/
theorem buildEditAppTool_contract_witness :
    schemaAccepts (buildEditAppTool (σ := TurnState) editMutator).function.parameters
      [("modificationRequest", "short")] = false ∧
    stepEvent "conv-1" { extractedUserResponse := "", extractedEnhancedRequest := "" }
      (EngineEvent.editCall "short") =
      ({ extractedUserResponse := "", extractedEnhancedRequest := "" }, []) :=
  ⟨(buildEditAppTool_contract TurnState editMutator).2.2.2.2.1 "short" (by decide),
   (buildEditAppTool_contract TurnState editMutator).2.2.2.2.2.1 "conv-1"
     { extractedUserResponse := "", extractedEnhancedRequest := "" } "short" (by decide)⟩

/-- C7: `attachLifecycle` leaves every field of the Tool Contract other than
`onStart`/`onComplete` unchanged; its `onStart` fires the sink with empty
chunk text, the turn's conversation identifier, `isStreaming=false` and a
tool event of status `start` with the call arguments; `onComplete` fires the
same with status `success`; and no code path of this core emits a tool event
of status `error`. -/
theorem attachLifecycle_contract :
    (∀ (Args Result σ : Type) (conv : String) (er : Args → ToolArgs)
        (td : ToolDefinition Args Result σ) (args : Args) (r : Result),
      (attachLifecycle conv er td).type = td.type ∧
      (attachLifecycle conv er td).function = td.function ∧
      (attachLifecycle conv er td).implementation = td.implementation ∧
      (attachLifecycle conv er td).onStart.map (fun f => f args) =
        some { message := "", conversationId := conv, isStreaming := false,
               tool := some { name := td.function.name,
                              status := ToolStatus.start, args := er args } } ∧
      ((attachLifecycle conv er td).onComplete.map (fun f => f args r)) =
        some { message := "", conversationId := conv, isStreaming := false,
               tool := some { name := td.function.name,
                              status := ToolStatus.success, args := er args } }) ∧
    (∀ (u : String) (p : List ConversationMessage) (run : EngineRun) (n : Nat)
        (e : CallbackEvent) (te : ToolEvent),
      e ∈ (UserConversationProcessor.execute u p run n).1 → e.tool = some te →
      te.status ≠ ToolStatus.error) := by
  constructor
  · intro Args Result σ conv er td args r
    exact ⟨rfl, rfl, rfl, rfl, rfl⟩
  · intro u p run n e te hmem htool
    obtain ⟨evs, outcome⟩ := run
    have h1 : (UserConversationProcessor.execute u p ⟨evs, outcome⟩ n).1 =
        (runEngine (IdGenerator.generateConversationId (n + 1))
          { extractedUserResponse := "", extractedEnhancedRequest := "" } evs).2 := by
      cases outcome with
      | ok s => rfl
      | error err =>
          simp only [UserConversationProcessor.execute]
          split <;> rfl
    rw [h1] at hmem
    exact runEngine_no_error_status _ evs _ e te hmem htool

/-- Witness for C7: in a concrete turn with one tool call, the emitted start
notification has status `start`, not `error`. -/
theorem attachLifecycle_contract_witness :
    ({ name := "queue_request", status := ToolStatus.start,
       args := [("modificationRequest", "Add A feature")] } : ToolEvent).status ≠
      ToolStatus.error :=
  attachLifecycle_contract.2 "hi" []
    ⟨[EngineEvent.editCall "Add A feature"], Except.ok ""⟩ 0
    { message := "", conversationId := "conv-1", isStreaming := false,
      tool := some { name := "queue_request", status := ToolStatus.start,
                     args := [("modificationRequest", "Add A feature")] } }
    { name := "queue_request", status := ToolStatus.start,
      args := [("modificationRequest", "Add A feature")] }
    (by decide) rfl

/-- C8: `isProjectUpdateType kind` is true exactly when `kind` belongs to the
fixed seven-element milestone allow-list, and for every member kind
`processProjectUpdates` returns exactly one assistant entry whose content is
the fixed marker naming the kind (the payload does not appear in it). -/
theorem projectUpdates_allowlist :
    (∀ kind, UserConversationProcessor.isProjectUpdateType kind = true ↔
      kind ∈ RelevantProjectUpdateWebsoketMessages) ∧
    RelevantProjectUpdateWebsoketMessages =
      ["phase-implementing", "phase-implemented", "code-review",
       "file-regenerating", "file-regenerated", "deployment-completed",
       "command-executing"] ∧
    (∀ (Payload : Type) (d : Payload) (kind : String) (n : Nat),
      kind ∈ RelevantProjectUpdateWebsoketMessages →
      UserConversationProcessor.processProjectUpdates kind d (Except.ok ()) n =
        [{ role := Role.assistant,
           content := "**<Internal Memo>**\nProject Updates: " ++ kind
             ++ "\n</Internal Memo>",
           conversationId := IdGenerator.generateConversationId n }]) := by
  refine ⟨?_, rfl, ?_⟩
  · intro kind
    simp [UserConversationProcessor.isProjectUpdateType, List.contains,
      List.elem_iff]
  · intro P d kind n hmem
    rfl

/-- Witness for C8 at the member kind `code-review`. -/
theorem projectUpdates_allowlist_witness :
    UserConversationProcessor.processProjectUpdates "code-review" (0 : Nat)
        (Except.ok ()) 5 =
      [{ role := Role.assistant,
         content := "**<Internal Memo>**\nProject Updates: " ++ "code-review"
           ++ "\n</Internal Memo>",
         conversationId := IdGenerator.generateConversationId 5 }] :=
  projectUpdates_allowlist.2.2 Nat 0 "code-review" 5 (by decide)

/-- C9: `processProjectUpdates` propagates no exception to its caller: it is
a total function, and when the one fallible operation of its try block (the
external logger call) fails, it returns the empty sequence. -/
theorem processProjectUpdates_no_propagation :
    ∀ (Payload : Type) (d : Payload) (kind : String) (n : Nat),
      (∀ errMsg : String,
        UserConversationProcessor.processProjectUpdates kind d
          (Except.error errMsg) n = []) ∧
      (∀ logOutcome : Except String Unit,
        UserConversationProcessor.processProjectUpdates kind d logOutcome n = [] ∨
        ∃ entry,
          UserConversationProcessor.processProjectUpdates kind d logOutcome n =
            [entry]) := by
  intro P d kind n
  constructor
  · intro errMsg
    rfl
  · intro logOutcome
    cases logOutcome with
    | ok v => right; exact ⟨_, rfl⟩
    | error e => left; rfl

/-- C10: the output of `processProjectUpdates` is independent of the event
payload: for any kind and any two payload values (even of different types),
the two runs return identical entries. -/
theorem processProjectUpdates_payload_noninterference :
    ∀ (P1 P2 : Type) (d1 : P1) (d2 : P2) (kind : String)
      (logOutcome : Except String Unit) (n : Nat),
      UserConversationProcessor.processProjectUpdates kind d1 logOutcome n =
        UserConversationProcessor.processProjectUpdates kind d2 logOutcome n := by
  intro P1 P2 d1 d2 kind logOutcome n
  cases logOutcome <;> rfl
